import Mathlib

/-!
Verification development for the pyopensky state-reconstruction pipeline
(`src/pyopensky/rebuild.py` and `src/pyopensky/decoders/pymodes.py`).

The embedding models dataframes as lists of structures.  A pandas column that
may hold `NaN` is modelled as an `Option` field; timestamps are rationals
(the `timestamp` column is `to_datetime(mintime)`, which is order- and
difference-isomorphic to the `mintime` float column, so both are represented
by the same rational number of seconds).
-/

/- The kernel happily unfolds the core rational-arithmetic operations, but
they are marked irreducible, which blocks the `decide` front end when claims
are evaluated on concrete inputs; restore the default reducibility. -/
set_option allowUnsafeReducibility true in
attribute [semireducible] Rat.add Rat.sub Rat.neg Rat.mul Rat.div Rat.inv

namespace Pyopensky

/-- One row of the raw position table handed to `PyModesDecoder.decode_position`
(columns used there: `timestamp`, `icao24`, `mintime`, `rawmsg`, `altitude`,
plus the `odd` parity flag used by the `query` calls). -/
structure RawFrame where
  mintime : ℚ
  icao24 : String
  rawmsg : String
  altitude : Option ℚ
  odd : Bool
deriving DecidableEq

/-- Match of `pd.merge_asof(left, right, on="timestamp", by="icao24",
tolerance=pd.Timedelta(seconds=tol))` for one left row: the default direction
of `merge_asof` is `"backward"`, so the match is the last right row (in the
timestamp-sorted right table) with the same `icao24`, a timestamp at or before
the left row, and within `tol` seconds of it. -/
def asofBackward (tol : ℚ) (l : RawFrame) (right : List RawFrame) : Option RawFrame :=
  (right.filter (fun r =>
    r.icao24 == l.icao24 && decide (r.mintime ≤ l.mintime)
      && decide (l.mintime - r.mintime ≤ tol))).getLast?

/-- One row of the concatenation of the two `merge_asof` results in
`decode_position`, before `dropna`: the join key columns plus the
(possibly missing) odd-suffixed and even-suffixed frame columns. -/
structure Cand where
  timestamp : ℚ
  icao24 : String
  oddFrame : Option RawFrame
  evenFrame : Option RawFrame
deriving DecidableEq

/-- The first `merge_asof` of `decode_position`: left table `pos_odd`,
right table `pos_even`, suffixes `("_odd", "_even")`. -/
def candidatesOddSide (tol : ℚ) (odds evens : List RawFrame) : List Cand :=
  odds.map (fun l => ⟨l.mintime, l.icao24, some l, asofBackward tol l evens⟩)

/-- The second `merge_asof` of `decode_position`: left table `pos_even`,
right table `pos_odd`, suffixes `("_even", "_odd")`. -/
def candidatesEvenSide (tol : ℚ) (odds evens : List RawFrame) : List Cand :=
  evens.map (fun l => ⟨l.mintime, l.icao24, asofBackward tol l odds, some l⟩)

/-- A retained pair after `dropna`: both frames present and every selected
column non-null (among the selected columns only `altitude` is nullable). -/
structure FramePair where
  timestamp : ℚ
  icao24 : String
  oddFrame : RawFrame
  evenFrame : RawFrame
deriving DecidableEq

/-- The `.dropna()` step applied to one candidate row: a row survives iff
none of its columns is null, i.e. both frames matched and both their
`altitude` columns are non-null. -/
def dropnaCand (c : Cand) : Option FramePair :=
  match c.oddFrame, c.evenFrame with
  | some o, some e =>
      if o.altitude.isSome && e.altitude.isSome then
        some ⟨c.timestamp, c.icao24, o, e⟩
      else none
  | _, _ => none

/-- Comparison used by `.sort_values("timestamp")` on candidate rows (the model
uses a stable sort; `sort_values` guarantees only sortedness by the key). -/
def candLe (a b : Cand) : Prop :=
  a.timestamp ≤ b.timestamp

instance : DecidableRel candLe := fun a b =>
  inferInstanceAs (Decidable (a.timestamp ≤ b.timestamp))

/-- The frame-pairing block of `PyModesDecoder.decode_position` (its `pos_odd`,
`pos_even` and `pos_pairs` computation): partition by the `odd` flag, run
`merge_asof` with a 10-second tolerance in both directions, concatenate,
re-sort by timestamp and `dropna`. -/
def pairFrames (df : List RawFrame) : List FramePair :=
  let posOdd := df.filter (fun f => f.odd)
  let posEven := df.filter (fun f => !f.odd)
  (((candidatesOddSide 10 posOdd posEven ++ candidatesEvenSide 10 posOdd posEven).insertionSort
      candLe).filterMap dropnaCand)

/-- Modelled from the spec: the spec words say each frame is matched with "the
nearest even frame within the tolerance window (10 s)", i.e. the candidate
minimising the absolute time difference, in either temporal direction.  This
definition follows those words; it is compared against `asofBackward`, which
is what the source's `merge_asof` (default backward direction) computes. -/
def nearestMatch (tol : ℚ) (l : RawFrame) (right : List RawFrame) : Option RawFrame :=
  (right.filter (fun r =>
    r.icao24 == l.icao24 && decide (|l.mintime - r.mintime| ≤ tol))).foldl
    (fun acc r =>
      match acc with
      | none => some r
      | some a => if |l.mintime - r.mintime| < |l.mintime - a.mintime| then some r else some a)
    none

/-- Modelled from the spec: the pairing step with the spec's "nearest" matching
in place of the source's backward `merge_asof` matching. -/
def pairFramesSpec (df : List RawFrame) : List FramePair :=
  let posOdd := df.filter (fun f => f.odd)
  let posEven := df.filter (fun f => !f.odd)
  ((((posOdd.map (fun l => (⟨l.mintime, l.icao24, some l, nearestMatch 10 l posEven⟩ : Cand)))
      ++ (posEven.map (fun l => (⟨l.mintime, l.icao24, nearestMatch 10 l posOdd, some l⟩ : Cand)))).insertionSort
      candLe).filterMap dropnaCand)

/-- The re-pairing input of the idempotence property: the frames of the input
table that were retained in some pair, kept in table order (the retained odd
frames still carry `odd = true` and the retained even frames `odd = false`,
so they act as independent odd and even inputs to a second pairing run). -/
def retainedFrames (df : List RawFrame) : List RawFrame :=
  df.filter (fun f =>
    (pairFrames df).any (fun p => p.oddFrame == f || p.evenFrame == f))

/-- The pyModeS calls made by `decode_position`, abstracted as an external
capability (the bit-level decoding is delegated to the pyModeS library):
`position msg_odd msg_even t_odd t_even` models `pms.adsb.position`,
`altitude msg` models `pms.adsb.altitude`, and `positionWithRef msg lat lon`
models `pms.adsb.position_with_ref`.  A `none` result stands for a `None`
return or an exception caught by the surrounding `try`/`except`. -/
structure DecodeOracle where
  position : String → String → ℚ → ℚ → Option (ℚ × ℚ)
  altitude : String → Option ℚ
  positionWithRef : String → ℚ → ℚ → Option (ℚ × ℚ)

/-- One row of `pos_pairs` after `assign(lat=lats, lon=lons, altitude=alts)`. -/
structure DecodedRow where
  pair : FramePair
  lat : Option ℚ
  lon : Option ℚ
  altitude : Option ℚ
deriving DecidableEq

/-- The first decode loop of `decode_position` for one pair: since the
concatenated table always carries the `rawmsg_odd` column, the `if` branch is
taken, so the odd message and time go to the odd slots of `pms.adsb.position`
and the altitude is decoded from the odd message. -/
def decodeRow (d : DecodeOracle) (p : FramePair) : DecodedRow :=
  let latlon := d.position p.oddFrame.rawmsg p.evenFrame.rawmsg
    p.oddFrame.mintime p.evenFrame.mintime
  { pair := p
    lat := latlon.map (fun q => q.1)
    lon := latlon.map (fun q => q.2)
    altitude := d.altitude p.oddFrame.rawmsg }

/-- One row after the reference assignment `assign(lat_ref_1=..shift(5), ...,
lat_ref_2=..shift(10), ...)`. -/
structure RefRow where
  row : DecodedRow
  latRef1 : Option ℚ
  lonRef1 : Option ℚ
  latRef2 : Option ℚ
  lonRef2 : Option ℚ
deriving DecidableEq

/-- The value of a shifted column at row index `i`: `shift(k)` moves every
value `k` rows down the whole table, so row `i` reads the value of row
`i - k` of the same table, and the first `k` rows read null. -/
def shiftAt (rows : List DecodedRow) (k i : ℕ) (f : DecodedRow → Option ℚ) : Option ℚ :=
  if k ≤ i then (rows.get? (i - k)).bind f else none

/-- The reference row built for index `i` of the decoded table: the `shift(5)`
and `shift(10)` reference columns, taken from the whole timestamp-sorted
table (the `assign` runs on `pos_pairs` as one table, with no grouping). -/
def refRowAt (rows : List DecodedRow) (i : ℕ) (r : DecodedRow) : RefRow :=
  { row := r
    latRef1 := shiftAt rows 5 i (fun x => x.lat)
    lonRef1 := shiftAt rows 5 i (fun x => x.lon)
    latRef2 := shiftAt rows 10 i (fun x => x.lat)
    lonRef2 := shiftAt rows 10 i (fun x => x.lon) }

/-- Helper for `withRefs`: walks the table with its row index. -/
def withRefsAux (all : List DecodedRow) : ℕ → List DecodedRow → List RefRow
  | _, [] => []
  | i, r :: rest => refRowAt all i r :: withRefsAux all (i + 1) rest

/-- The reference-assignment step of `decode_position` over the whole table. -/
def withRefs (rows : List DecodedRow) : List RefRow :=
  withRefsAux rows 0 rows

/-- One row after the second decode loop assigns `lat_1`, `lon_1`, `lat_2`,
`lon_2` (the two reference-anchored re-decodes of the odd raw message). -/
structure CheckedRow where
  ref : RefRow
  lat1 : Option ℚ
  lon1 : Option ℚ
  lat2 : Option ℚ
  lon2 : Option ℚ
deriving DecidableEq

/-- The second decode loop of `decode_position` for one row: the `rawmsg_odd`
column is always present, so `msg` is the odd raw message; when a reference
column is null the anchored decode yields no value (NaN in, NaN out, and the
row cannot survive the final `dropna` anyway because the null reference
column itself is checked there). -/
def checkRow (d : DecodeOracle) (r : RefRow) : CheckedRow :=
  let ll1 := match r.latRef1, r.lonRef1 with
    | some a, some b => d.positionWithRef r.row.pair.oddFrame.rawmsg a b
    | _, _ => none
  let ll2 := match r.latRef2, r.lonRef2 with
    | some a, some b => d.positionWithRef r.row.pair.oddFrame.rawmsg a b
    | _, _ => none
  { ref := r
    lat1 := ll1.map (fun q => q.1)
    lon1 := ll1.map (fun q => q.2)
    lat2 := ll2.map (fun q => q.1)
    lon2 := ll2.map (fun q => q.2) }

/-- One fully validated output row of `decode_position` (all nullable columns
known non-null after the final `dropna`). -/
structure ValidRow where
  pair : FramePair
  lat : ℚ
  lon : ℚ
  altitude : ℚ
  latRef1 : ℚ
  lonRef1 : ℚ
  latRef2 : ℚ
  lonRef2 : ℚ
  lat1 : ℚ
  lon1 : ℚ
  lat2 : ℚ
  lon2 : ℚ
deriving DecidableEq

/-- The final `.dropna()` plus the
`query("dlat_1<0.1 and dlon_1<0.1 and dlat_2<0.1 and dlon_2<0.1")` filter of
`decode_position`: a row survives iff every nullable column is non-null and
every absolute difference against the two anchored re-decodes is strictly
below 0.1 degrees. -/
def finalizeRow (c : CheckedRow) : Option ValidRow :=
  match c.ref.row.lat, c.ref.row.lon, c.ref.row.altitude,
      c.ref.latRef1, c.ref.lonRef1, c.ref.latRef2, c.ref.lonRef2,
      c.lat1, c.lon1, c.lat2, c.lon2 with
  | some lat, some lon, some alt, some lr1, some nr1, some lr2, some nr2,
      some l1, some n1, some l2, some n2 =>
      if |lat - l1| < 1/10 ∧ |lon - n1| < 1/10 ∧ |lat - l2| < 1/10 ∧ |lon - n2| < 1/10 then
        some ⟨c.ref.row.pair, lat, lon, alt, lr1, nr1, lr2, nr2, l1, n1, l2, n2⟩
      else none
  | _, _, _, _, _, _, _, _, _, _, _ => none

/-- Result of `PyModesDecoder.decode_position`: when zero pairs are produced
the method returns its input dataframe unchanged (`return df`), otherwise it
returns the validated `pos_pairs` table, which has a different column set. -/
inductive PosResult where
  | raw (df : List RawFrame)
  | decoded (rows : List ValidRow)
deriving DecidableEq

/-- The whole of `PyModesDecoder.decode_position`: pair the odd/even frames,
return the input unchanged if no pair was built, otherwise decode each pair,
assign the `shift(5)`/`shift(10)` reference columns, drop rows whose decode
failed (`dropna(subset=["lat", "lon"])`), re-decode against both references
and keep only the rows that pass the final `dropna` and consistency filter. -/
def decode_position (d : DecodeOracle) (df : List RawFrame) : PosResult :=
  let ps := pairFrames df
  if ps = [] then .raw df
  else
    let rows := ps.map (decodeRow d)
    let refRows := (withRefs rows).filter
      (fun r => r.row.lat.isSome && r.row.lon.isSome)
    .decoded ((refRows.map (checkRow d)).filterMap finalizeRow)

/-! Fusion stage of `Rebuild.rebuild` (rebuild.py lines 425-538). -/

/-- One row of the position table as it enters the fusion stage (after the
`alt` → `altitude` and `heading` → `track` renames; only the columns the
fusion stage reads are modelled). -/
structure PosRow where
  timestamp : ℚ
  icao24 : String
  lat : Option ℚ
  lon : Option ℚ
  altitude : Option ℚ
  track : Option ℚ
  groundspeed : Option ℚ
deriving DecidableEq

/-- One row of the velocity table (after the `heading` → `track` and
`vertrate` → `vertical_rate` renames). -/
structure VelRow where
  timestamp : ℚ
  icao24 : String
  rawmsg : String
  velocity : Option ℚ
  track : Option ℚ
  vertical_rate : Option ℚ
  geominurbaro : Option ℚ
deriving DecidableEq

/-- One row of the identification table (after the `identity` → `callsign`
rename). -/
structure IdentRow where
  timestamp : ℚ
  icao24 : String
  callsign : Option String
deriving DecidableEq

/-- One row of the rollcall-replies table (only the columns relevant to the
claims are modelled). -/
structure RollRow where
  timestamp : ℚ
  icao24 : String
  squawk : Option String
deriving DecidableEq

/-- One row of the fused output table of `Rebuild.rebuild`.  A column that a
given code path never creates is modelled as a null (`none`) field. -/
structure FusedRow where
  timestamp : ℚ
  icao24 : String
  lat : Option ℚ
  lon : Option ℚ
  altitude : Option ℚ
  track : Option ℚ
  groundspeed : Option ℚ
  velocity : Option ℚ
  vertical_rate : Option ℚ
  geominurbaro : Option ℚ
  geoaltitude : Option ℚ
  callsign : Option String
  squawk : Option String
deriving DecidableEq

/-- Match of `pd.merge_asof(..., on="timestamp", by="icao24",
direction="nearest", tolerance=pd.Timedelta(seconds=tol))` for one left row:
the right row with the same `icao24` minimising the absolute time difference,
within `tol` seconds (the model resolves an exact distance tie toward the
earlier right row; no claim settled here depends on the tie rule). -/
def asofNearest {β : Type} (tol ts : ℚ) (key : String)
    (tsOf : β → ℚ) (keyOf : β → String) (right : List β) : Option β :=
  (right.filter (fun r => keyOf r == key && decide (|ts - tsOf r| ≤ tol))).foldl
    (fun acc r =>
      match acc with
      | none => some r
      | some a => if |ts - tsOf r| < |ts - tsOf a| then some r else some a)
    none

/-- The position table as it stands when fusion begins: no velocity,
identification or rollcall column exists yet. -/
def posToFused (p : PosRow) : FusedRow :=
  ⟨p.timestamp, p.icao24, p.lat, p.lon, p.altitude, p.track, p.groundspeed,
    none, none, none, none, none, none⟩

/-- The velocity merge block (rebuild.py lines 445-490): `merge_asof` with a
5-second nearest-time tolerance, then the `track` reconciliation
`np.where(pd.isna(track_pos), track_vel, track_pos)` and the derived column
`geoaltitude = altitude + geominurbaro` (NaN-propagating addition). -/
def velStep (rows : List FusedRow) (vel : List VelRow) : List FusedRow :=
  rows.map (fun p =>
    let m := asofNearest 5 p.timestamp p.icao24
      (fun v => v.timestamp) (fun v => v.icao24) vel
    let trackVel := m.bind (fun v => v.track)
    let gmb := m.bind (fun v => v.geominurbaro)
    { p with
      velocity := m.bind (fun v => v.velocity)
      vertical_rate := m.bind (fun v => v.vertical_rate)
      geominurbaro := gmb
      track := match p.track with
        | none => trackVel
        | some t => some t
      geoaltitude := match p.altitude, gmb with
        | some a, some g => some (a + g)
        | _, _ => none })

/-- The identification merge block (rebuild.py lines 503-512). -/
def identStep (rows : List FusedRow) (ident : List IdentRow) : List FusedRow :=
  rows.map (fun p =>
    { p with
      callsign := (asofNearest 5 p.timestamp p.icao24
        (fun i => i.timestamp) (fun i => i.icao24) ident).bind (fun i => i.callsign) })

/-- The rollcall merge taken when `include_rollcall` is set
(rebuild.py lines 526-534). -/
def rollMergeStep (rows : List FusedRow) (roll : List RollRow) : List FusedRow :=
  rows.map (fun p =>
    { p with
      squawk := (asofNearest 5 p.timestamp p.icao24
        (fun r => r.timestamp) (fun r => r.icao24) roll).bind (fun r => r.squawk) })

/-- A rollcall row appended by `pd.concat([pos_data, rollcall_data], axis=0)`
when `include_rollcall` is not set: every position/velocity/identification
column of such a row is null. -/
def rollToFused (r : RollRow) : FusedRow :=
  ⟨r.timestamp, r.icao24, none, none, none, none, none,
    none, none, none, none, none, r.squawk⟩

/-- Ordering of `.sort_values(["icao24", "timestamp"])`: ascending
lexicographic on (aircraft address, timestamp), the address compared as its
character sequence (code-point lexicographic, as Python compares
strings). -/
def fusedLe (a b : FusedRow) : Prop :=
  a.icao24.data < b.icao24.data ∨ (a.icao24 = b.icao24 ∧ a.timestamp ≤ b.timestamp)

instance : DecidableRel fusedLe := fun _ _ =>
  inferInstanceAs (Decidable (_ ∨ _))

instance : IsTotal FusedRow fusedLe where
  total a b := by
    rcases lt_trichotomy a.icao24.data b.icao24.data with h | h | h
    · exact Or.inl (Or.inl h)
    · have hs : a.icao24 = b.icao24 := String.ext h
      rcases le_total a.timestamp b.timestamp with ht | ht
      · exact Or.inl (Or.inr ⟨hs, ht⟩)
      · exact Or.inr (Or.inr ⟨hs.symm, ht⟩)
    · exact Or.inr (Or.inl h)

instance : IsTrans FusedRow fusedLe where
  trans a b c hab hbc := by
    rcases hab with h1 | ⟨h1, t1⟩
    · rcases hbc with h2 | ⟨h2, _⟩
      · exact Or.inl (h1.trans h2)
      · exact Or.inl (h2 ▸ h1)
    · rcases hbc with h2 | ⟨h2, t2⟩
      · exact Or.inl (h1 ▸ h2)
      · exact Or.inr ⟨h1.trans h2, t1.trans t2⟩

/-- The fusion stage of `Rebuild.rebuild` (lines 425-538, after the position
table is known non-empty): merge velocity if present, merge identification if
present, then either merge or append rollcall if present, and sort the result
by (icao24, timestamp).  An absent (`None`) upstream table and an empty table
take the same skip branch, so both are modelled by `[]`. -/
def fuse (pos : List PosRow) (vel : List VelRow) (ident : List IdentRow)
    (roll : List RollRow) (includeRollcall : Bool) : List FusedRow :=
  let r0 := pos.map posToFused
  let r1 := if vel.isEmpty then r0 else velStep r0 vel
  let r2 := if ident.isEmpty then r1 else identStep r1 ident
  let r3 :=
    if roll.isEmpty then r2
    else if includeRollcall then rollMergeStep r2 roll
    else r2 ++ roll.map rollToFused
  r3.insertionSort fusedLe

/-! Preparation of the identification stream
(`Rebuild.redecode_identification`, lines 290-299). -/

/-- Embeds `x.callsign.str.replace(" ", "")`, which deletes every space
character of the callsign. -/
def removeSpaces (s : String) : String :=
  String.mk (s.data.filter (fun c => c != ' '))

/-- Ordering of `.sort_values("timestamp")` on identification rows. -/
def identLe (a b : IdentRow) : Prop :=
  a.timestamp ≤ b.timestamp

instance : DecidableRel identLe := fun a b =>
  inferInstanceAs (Decidable (a.timestamp ≤ b.timestamp))

/-- The dataframe pipeline of `redecode_identification` after the fetch: the
`identity` → `callsign` rename, the space removal
`assign(callsign=lambda x: x.callsign.str.replace(" ", ""))`, and the sort by
timestamp (a null callsign stays null through `str.replace`). -/
def identPrep (rows : List IdentRow) : List IdentRow :=
  (rows.map (fun r => { r with callsign := r.callsign.map removeSpaces })).insertionSort identLe

/-! Orchestration model of `Rebuild.rebuild` and `Rebuild.redecode_position`
(rebuild.py lines 81-194 and 352-538).  The Trino query layer is an external
collaborator: each `self.trino.rawdata(...)` call is modelled as reading one
table of an oracle `RawTables` value and emitting one `FetchEvent`, so that
"no network fetch occurs" is the statement that the emitted event list is
empty.  Errors are modelled by `Except`; both `ValueError`s raised by this
code path belong to the spec's ConfigurationError taxonomy. -/

/-- Errors surfaced by the orchestrator. -/
inductive RebuildError where
  | configurationError (msg : String)
deriving DecidableEq

/-- One network fetch against the raw stream source. -/
inductive FetchEvent where
  | positionSample
  | position
  | velocity
  | identification
  | rollcall
deriving DecidableEq

/-- A geographic bound (west, south, east, north), as accepted by the
`bounds` argument. -/
structure Bounds where
  west : ℚ
  south : ℚ
  east : ℚ
  north : ℚ
deriving DecidableEq

/-- One row of the raw position fetch of `redecode_position` (base columns
plus the requested extra columns, with the `surface` → `onground`,
`alt` → `altitude` and `heading` → `track` renames applied to field names). -/
structure PosFetchRow where
  mintime : ℚ
  icao24 : String
  rawmsg : String
  lat : Option ℚ
  lon : Option ℚ
  altitude : Option ℚ
  groundspeed : Option ℚ
  track : Option ℚ
  onground : Option Bool
  nic : Option ℚ
  odd : Bool
deriving DecidableEq

/-- The tables the external Trino source would return for the requested time
range and filters; `none` models a `None` return. -/
structure RawTables where
  posBounds : Option (List PosFetchRow)
  pos : Option (List PosFetchRow)
  vel : Option (List VelRow)
  ident : Option (List IdentRow)
  roll : Option (List RollRow)

/-- A decoder instance, as consumed by the orchestrator: the four
`decode_*` operations of the `Decoder` base class.  The position operation is
given the unified fusion-input schema as its result type, since the decoded
dataframe flows straight into the fusion stage. -/
structure DecoderModel where
  decodePositionOp : List PosFetchRow → List PosRow
  decodeVelocityOp : List VelRow → List VelRow
  decodeIdentificationOp : List IdentRow → List IdentRow
  decodeRollcallOp : List RollRow → List RollRow

/-- The `decoder` argument of `rebuild`: `None`, an instance, or a strategy
name string. -/
inductive DecoderSel where
  | noDecoder
  | inst (dm : DecoderModel)
  | byName (s : String)

/-- The decoder-name resolution at the top of `rebuild` (lines 399-412): a
string argument is matched against the two built-in names and any other
string raises immediately.  The two built-in constructions are external
(library imports), so they are passed in as parameters. -/
def resolveDecoder (pymodesD rs1090D : DecoderModel) :
    DecoderSel → Except RebuildError (Option DecoderModel)
  | .noDecoder => .ok none
  | .inst dm => .ok (some dm)
  | .byName s =>
      if s = "pymodes" then .ok (some pymodesD)
      else if s = "rs1090" then .ok (some rs1090D)
      else .error (.configurationError ("Unknown decoder string: " ++ s))

/-- Helper for `drop_duplicates("rawmsg")` on the position fetch: keeps the
first row carrying each raw message. -/
def dedupPosByRawmsg : List String → List PosFetchRow → List PosFetchRow
  | _, [] => []
  | seen, r :: rest =>
      if r.rawmsg ∈ seen then dedupPosByRawmsg seen rest
      else r :: dedupPosByRawmsg (r.rawmsg :: seen) rest

/-- Ordering of `.sort_values("timestamp")` on fetched position rows. -/
def posFetchLe (a b : PosFetchRow) : Prop :=
  a.mintime ≤ b.mintime

instance : DecidableRel posFetchLe := fun a b =>
  inferInstanceAs (Decidable (a.mintime ≤ b.mintime))

/-- The dataframe preparation of `redecode_position` (lines 170-185): assign
the timestamp column, drop duplicate raw messages, rename, sort by
timestamp. -/
def posPrep (rows : List PosFetchRow) : List PosFetchRow :=
  (dedupPosByRawmsg [] rows).insertionSort posFetchLe

/-- Projection of an undecoded position row into the fusion-input schema
(the `decoder is None` path hands `pos_data` to the fusion stage as is). -/
def posFetchToPosRow (p : PosFetchRow) : PosRow :=
  ⟨p.mintime, p.icao24, p.lat, p.lon, p.altitude, p.track, p.groundspeed⟩

/-- `Rebuild.redecode_position` (lines 123-194): raise if neither `icao24`
nor `bounds` is given — before anything else, in particular before any
fetch — then, in the bounds-only case, run the sample query that resolves the
bound to candidate addresses, then fetch the raw position table, prepare it
and apply the decoder if one was given.  The result pairs the returned value
with the list of fetches performed. -/
def redecodePositionM (src : RawTables) (icao24 : Option (List String))
    (bounds : Option Bounds) (dec : Option DecoderModel) :
    Except RebuildError (Option (List PosRow)) × List FetchEvent :=
  match icao24, bounds with
  | none, none =>
      (.error (.configurationError "Either icao24 or bounds must be specified"), [])
  | _, _ =>
      let sampleEmpty : Bool × List FetchEvent :=
        match icao24, bounds with
        | none, some _ =>
            match src.posBounds with
            | none => (true, [.positionSample])
            | some sample => (sample.isEmpty, [.positionSample])
        | _, _ => (false, [])
      if sampleEmpty.1 then (.ok none, sampleEmpty.2)
      else
        let evs := sampleEmpty.2 ++ [.position]
        match src.pos with
        | none => (.ok none, evs)
        | some rows =>
            if rows.isEmpty then (.ok none, evs)
            else
              let prepped := posPrep rows
              match dec with
              | none => (.ok (some (prepped.map posFetchToPosRow)), evs)
              | some dm => (.ok (some (dm.decodePositionOp prepped)), evs)

/-- Ordering of `.sort_values("timestamp")` on velocity rows. -/
def velLe (a b : VelRow) : Prop :=
  a.timestamp ≤ b.timestamp

instance : DecidableRel velLe := fun a b =>
  inferInstanceAs (Decidable (a.timestamp ≤ b.timestamp))

/-- Helper for `drop_duplicates("rawmsg")` on the velocity fetch. -/
def dedupVelByRawmsg : List String → List VelRow → List VelRow
  | _, [] => []
  | seen, r :: rest =>
      if r.rawmsg ∈ seen then dedupVelByRawmsg seen rest
      else r :: dedupVelByRawmsg (r.rawmsg :: seen) rest

/-- The dataframe preparation of `redecode_velocity` (lines 236-245). -/
def velPrep (rows : List VelRow) : List VelRow :=
  (dedupVelByRawmsg [] rows).insertionSort velLe

/-- Ordering of `.sort_values("timestamp")` on rollcall rows. -/
def rollLe (a b : RollRow) : Prop :=
  a.timestamp ≤ b.timestamp

instance : DecidableRel rollLe := fun a b =>
  inferInstanceAs (Decidable (a.timestamp ≤ b.timestamp))

/-- The dataframe preparation of `redecode_rollcall` (lines 343-345): assign
the timestamp column and sort (no deduplication here). -/
def rollPrep (rows : List RollRow) : List RollRow :=
  rows.insertionSort rollLe

/-- `Rebuild.rebuild` (lines 352-538): resolve a string decoder selection
first (lines 399-412, before anything else), fetch and prepare the position
table, return "no data" when it is absent or empty, then fetch velocity,
identification and rollcall (the rollcall fetch happens whether or not
`include_rollcall` is set) and run the fusion stage.  The secondary fetches
are filtered to the addresses present in the position data; that filter only
shapes the external queries, which the oracle `src` already stands for. -/
def rebuildModel (src : RawTables) (pymodesD rs1090D : DecoderModel)
    (icao24 : Option (List String)) (bounds : Option Bounds)
    (dec : DecoderSel) (includeRollcall : Bool) :
    Except RebuildError (Option (List FusedRow)) × List FetchEvent :=
  match resolveDecoder pymodesD rs1090D dec with
  | .error e => (.error e, [])
  | .ok dm =>
      match redecodePositionM src icao24 bounds dm with
      | (.error e, evs) => (.error e, evs)
      | (.ok none, evs) => (.ok none, evs)
      | (.ok (some pos), evs) =>
          if pos.isEmpty then (.ok none, evs)
          else
            let vel : List VelRow :=
              match src.vel with
              | none => []
              | some v =>
                  if v.isEmpty then []
                  else
                    match dm with
                    | none => velPrep v
                    | some m => m.decodeVelocityOp (velPrep v)
            let ident : List IdentRow :=
              match src.ident with
              | none => []
              | some t =>
                  if t.isEmpty then []
                  else
                    match dm with
                    | none => identPrep t
                    | some m => m.decodeIdentificationOp (identPrep t)
            let roll : List RollRow :=
              match src.roll with
              | none => []
              | some t =>
                  if t.isEmpty then []
                  else
                    match dm with
                    | none => rollPrep t
                    | some m => m.decodeRollcallOp (rollPrep t)
            (.ok (some (fuse pos vel ident roll includeRollcall)),
              evs ++ [.velocity, .identification, .rollcall])

/-! Concrete inputs used by scenario theorems, counterexamples and
witnesses. -/

/-- Odd position frame of the spec scenario, at t = 100. -/
def frameOdd100 : RawFrame := ⟨100, "400A0E", "8d400a0e58c38penny1", some 38000, true⟩

/-- Even position frame of the spec scenario, at t = 104. -/
def frameEven104 : RawFrame := ⟨104, "400A0E", "8d400a0e58c38penny2", some 38000, false⟩

/-- Third frame of the spec scenario: same parity as the first, at t = 200,
with no partner within the 10-second tolerance. -/
def frameOdd200 : RawFrame := ⟨200, "400A0E", "8d400a0e58c38penny3", some 38000, true⟩

/-- The position input table of the spec scenario for address "400A0E". -/
def scenarioDf : List RawFrame := [frameOdd100, frameEven104, frameOdd200]

/-- The single pair the code builds from the scenario table. -/
def scenarioPair : FramePair := ⟨104, "400A0E", frameOdd100, frameEven104⟩

/-- An oracle whose decode calls all fail; used where the decode content is
irrelevant. -/
def trivOracle : DecodeOracle :=
  ⟨fun _ _ _ _ => none, fun _ => none, fun _ _ _ => none⟩

/-- A single unpaired raw frame: pairing it yields zero pairs. -/
def lonelyFrameDf : List RawFrame :=
  [⟨100, "aaaaaa", "8d3c6589penny", some 1000, true⟩]

/-- The C9 counterexample input: aircraft "abcdef" frames at t = 89 (odd),
91 (even), 95 (even, null altitude), 100 (odd), 101 (even). -/
def repairOdd89 : RawFrame := ⟨89, "abcdef", "8d1penny", some 1000, true⟩

/-- Even frame at t = 91 of the C9 counterexample input. -/
def repairEven91 : RawFrame := ⟨91, "abcdef", "8d2penny", some 1000, false⟩

/-- Even frame at t = 95, with null altitude, of the C9 counterexample
input: it absorbs the backward match of the odd frame at t = 100 in the
first run and is dropped by `dropna`, then is absent from the re-run. -/
def repairEven95 : RawFrame := ⟨95, "abcdef", "8d3penny", none, false⟩

/-- Odd frame at t = 100 of the C9 counterexample input. -/
def repairOdd100 : RawFrame := ⟨100, "abcdef", "8d4penny", some 1000, true⟩

/-- Even frame at t = 101 of the C9 counterexample input. -/
def repairEven101 : RawFrame := ⟨101, "abcdef", "8d5penny", some 1000, false⟩

/-- The C9 counterexample table. -/
def repairDf : List RawFrame :=
  [repairOdd89, repairEven91, repairEven95, repairOdd100, repairEven101]

/-- Interleaved two-aircraft input: five pairs of aircraft "aaaaaa" followed
by one pair of aircraft "bbbbbb". -/
def crossDf : List RawFrame :=
  [⟨0, "aaaaaa", "ao0", some 100, true⟩, ⟨1, "aaaaaa", "ae0", some 100, false⟩,
   ⟨20, "aaaaaa", "ao1", some 100, true⟩, ⟨21, "aaaaaa", "ae1", some 100, false⟩,
   ⟨40, "aaaaaa", "ao2", some 100, true⟩, ⟨41, "aaaaaa", "ae2", some 100, false⟩,
   ⟨60, "aaaaaa", "ao3", some 100, true⟩, ⟨61, "aaaaaa", "ae3", some 100, false⟩,
   ⟨80, "aaaaaa", "ao4", some 100, true⟩, ⟨81, "aaaaaa", "ae4", some 100, false⟩,
   ⟨100, "bbbbbb", "bo5", some 100, true⟩, ⟨101, "bbbbbb", "be5", some 100, false⟩]

/-- An oracle placing aircraft "bbbbbb" (odd message "bo5") at (50, 6) and
aircraft "aaaaaa" at (10, 2); reference-anchored decodes echo their
reference. -/
def crossOracle : DecodeOracle :=
  ⟨fun mo _ _ _ => if mo = "bo5" then some (50, 6) else some (10, 2),
   fun _ => some 100,
   fun _ la lo => some (la, lo)⟩

/-- The decoded pair table of the two-aircraft input. -/
def crossRows : List DecodedRow :=
  (pairFrames crossDf).map (decodeRow crossOracle)

/-- A position table of eleven well-separated odd/even pairs for one
aircraft: enough history for the row at index 10 to carry both the 5-back
and the 10-back reference. -/
def historyDf : List RawFrame :=
  [⟨0, "aaaaaa", "vo0", some 1000, true⟩, ⟨1, "aaaaaa", "ve0", some 1000, false⟩,
   ⟨20, "aaaaaa", "vo1", some 1000, true⟩, ⟨21, "aaaaaa", "ve1", some 1000, false⟩,
   ⟨40, "aaaaaa", "vo2", some 1000, true⟩, ⟨41, "aaaaaa", "ve2", some 1000, false⟩,
   ⟨60, "aaaaaa", "vo3", some 1000, true⟩, ⟨61, "aaaaaa", "ve3", some 1000, false⟩,
   ⟨80, "aaaaaa", "vo4", some 1000, true⟩, ⟨81, "aaaaaa", "ve4", some 1000, false⟩,
   ⟨100, "aaaaaa", "vo5", some 1000, true⟩, ⟨101, "aaaaaa", "ve5", some 1000, false⟩,
   ⟨120, "aaaaaa", "vo6", some 1000, true⟩, ⟨121, "aaaaaa", "ve6", some 1000, false⟩,
   ⟨140, "aaaaaa", "vo7", some 1000, true⟩, ⟨141, "aaaaaa", "ve7", some 1000, false⟩,
   ⟨160, "aaaaaa", "vo8", some 1000, true⟩, ⟨161, "aaaaaa", "ve8", some 1000, false⟩,
   ⟨180, "aaaaaa", "vo9", some 1000, true⟩, ⟨181, "aaaaaa", "ve9", some 1000, false⟩,
   ⟨200, "aaaaaa", "voA", some 1000, true⟩, ⟨201, "aaaaaa", "veA", some 1000, false⟩]

/-- An oracle decoding every pair to (48, 2) at altitude 1000, with
reference-anchored decodes also (48, 2). -/
def steadyOracle : DecodeOracle :=
  ⟨fun _ _ _ _ => some (48, 2), fun _ => some 1000, fun _ _ _ => some (48, 2)⟩

/-- The last pair of the eleven-pair table. -/
def historyPair : FramePair :=
  ⟨201, "aaaaaa", ⟨200, "aaaaaa", "voA", some 1000, true⟩,
    ⟨201, "aaaaaa", "veA", some 1000, false⟩⟩

/-- The one validated row the eleven-pair run produces. -/
def historyRow : ValidRow :=
  ⟨historyPair, 48, 2, 1000, 48, 2, 48, 2, 48, 2, 48, 2⟩

/-- A one-row position timeline. -/
def soloPos : List PosRow := [⟨100, "aaaaaa", some 48, some 2, some 1000, none, none⟩]

/-- A one-row rollcall table. -/
def soloRoll : List RollRow := [⟨100, "aaaaaa", some "7700"⟩]

/-- A source with one raw position row and one rollcall row. -/
def posRollSrc : RawTables :=
  ⟨none,
    some [⟨100, "aaaaaa", "8dposdat", some 48, some 2, some 1000, none, none,
      none, none, true⟩],
    none, none, some soloRoll⟩

/-- The NaN-propagating sum `altitude + geominurbaro` assigned to the
`geoaltitude` column. -/
def geoSum (a g : Option ℚ) : Option ℚ :=
  match a, g with
  | some x, some y => some (x + y)
  | _, _ => none

/-- The one velocity row of the C6 witness run. -/
def soloVel : List VelRow := [⟨102, "aaaaaa", "8dveldat", some 250, some 90, some 0, some 50⟩]

/-- The single fused row of the C6 witness run. -/
def soloFused : FusedRow :=
  ⟨100, "aaaaaa", some 48, some 2, some 1000, some 90, none, some 250, some 0,
    some 50, some 1050, none, none⟩

/-- The raw identification table of the C10 witness run: a callsign with an
interior space and trailing padding. -/
def paddedIdent : List IdentRow := [⟨100, "aaaaaa", some "AB C  "⟩]

/-- The fused row of the C10 witness run. -/
def fusedWithCallsign : FusedRow :=
  ⟨100, "aaaaaa", some 48, some 2, some 1000, none, none, none, none, none,
    none, some "ABC", none⟩

/-- An oracle with no data in any table. -/
def emptySrc : RawTables := ⟨none, none, none, none, none⟩

/-- A decoder instance that changes nothing (the undecoded projection for
positions, identity elsewhere). -/
def identityDecoder : DecoderModel :=
  ⟨fun rows => rows.map posFetchToPosRow, fun v => v, fun i => i, fun t => t⟩

/-! General lemmas shared by several claim proofs. -/

/-- The head of a list is still the head of any sublist containing it,
provided the list has no duplicates. -/
theorem head?_of_sublist_of_nodup {α : Type} {M₂ M : List α} {e : α}
    (hsub : M₂.Sublist M) (hnd : M.Nodup) (hh : M.head? = some e)
    (hmem : e ∈ M₂) : M₂.head? = some e := by
  cases M with
  | nil => simp at hh
  | cons a t =>
      have ha : a = e := by simpa using hh
      subst ha
      have hnotmem : a ∉ t := (List.nodup_cons.mp hnd).1
      cases hsub with
      | cons _ h =>
          exact absurd (h.mem hmem) hnotmem
      | cons₂ h =>
          rfl

/-- The last element of a list is still the last element of any sublist that
contains it, provided the list has no duplicates. -/
theorem getLast?_of_sublist_of_nodup {α : Type} {L₂ L : List α} {e : α}
    (hsub : L₂.Sublist L) (hnd : L.Nodup) (hlast : L.getLast? = some e)
    (hmem : e ∈ L₂) : L₂.getLast? = some e := by
  rw [List.getLast?_eq_head?_reverse] at hlast ⊢
  exact head?_of_sublist_of_nodup (List.reverse_sublist.mpr hsub)
    (List.nodup_reverse.mpr hnd) hlast (List.mem_reverse.mpr hmem)

/-- Generic fact about accumulator folds that only ever keep the current
accumulator or replace it by the element being visited: a `some` result is a
member of the list unless it was the initial accumulator. -/
theorem foldl_pick_mem {β : Type} (f : Option β → β → Option β)
    (hf : ∀ acc r x, f acc r = some x → x = r ∨ acc = some x) :
    ∀ (l : List β) (acc : Option β) (x : β),
      l.foldl f acc = some x → x ∈ l ∨ acc = some x := by
  intro l
  induction l with
  | nil => intro acc x h; exact Or.inr h
  | cons r t ih =>
      intro acc x h
      rcases ih (f acc r) x h with hx | hacc
      · exact Or.inl (List.mem_cons_of_mem _ hx)
      · rcases hf acc r x hacc with rfl | h'
        · exact Or.inl (List.mem_cons_self _ _)
        · exact Or.inr h'

/-- A `merge_asof`-nearest match is a row of the right table. -/
theorem asofNearest_mem {β : Type} {tol ts : ℚ} {key : String}
    {tsOf : β → ℚ} {keyOf : β → String} {right : List β} {x : β}
    (h : asofNearest tol ts key tsOf keyOf right = some x) : x ∈ right := by
  unfold asofNearest at h
  have hpick : ∀ (acc : Option β) (r y : β),
      (match acc with
        | none => some r
        | some a => if |ts - tsOf r| < |ts - tsOf a| then some r else some a) = some y →
      y = r ∨ acc = some y := by
    intro acc r y hy
    cases acc with
    | none => exact Or.inl (by simpa using hy.symm)
    | some a =>
        dsimp only at hy
        by_cases hc : |ts - tsOf r| < |ts - tsOf a|
        · rw [if_pos hc] at hy
          exact Or.inl (by simpa using hy.symm)
        · rw [if_neg hc] at hy
          exact Or.inr hy
  rcases foldl_pick_mem _ hpick _ none x h with hx | hx
  · exact List.mem_of_mem_filter hx
  · simp at hx

/-- An `asofBackward` match is a row of the right table satisfying the join
predicate: same aircraft, at or before the left timestamp, within
tolerance. -/
theorem asofBackward_spec {tol : ℚ} {l : RawFrame} {right : List RawFrame}
    {e : RawFrame} (h : asofBackward tol l right = some e) :
    e ∈ right ∧ e.icao24 = l.icao24 ∧ e.mintime ≤ l.mintime ∧
      l.mintime - e.mintime ≤ tol := by
  unfold asofBackward at h
  have hmem := List.mem_of_mem_getLast? h
  rw [List.mem_filter] at hmem
  obtain ⟨hr, hp⟩ := hmem
  rw [Bool.and_eq_true, Bool.and_eq_true] at hp
  exact ⟨hr, beq_iff_eq.mp hp.1.1, of_decide_eq_true hp.1.2, of_decide_eq_true hp.2⟩

/-- Indexing `withRefsAux`: the row at offset `j` of the suffix walk carries
the references computed at absolute index `i + j`. -/
theorem withRefsAux_get? (all : List DecodedRow) :
    ∀ (l : List DecodedRow) (i j : ℕ),
      (withRefsAux all i l).get? j = (l.get? j).map (fun r => refRowAt all (i + j) r) := by
  intro l
  induction l with
  | nil => intro i j; cases j <;> rfl
  | cons r rest ih =>
      intro i j
      cases j with
      | zero => rfl
      | succ j' =>
          have hidx : i + (j' + 1) = i + 1 + j' := by omega
          show (withRefsAux all (i + 1) rest).get? j'
            = (rest.get? j').map (fun r => refRowAt all (i + (j' + 1)) r)
          rw [hidx]
          exact ih (i + 1) j'

/-- Every row produced by `withRefsAux` wraps a row of the walked list. -/
theorem withRefsAux_row_mem (all : List DecodedRow) :
    ∀ (l : List DecodedRow) (i : ℕ) (r : RefRow),
      r ∈ withRefsAux all i l → r.row ∈ l := by
  intro l
  induction l with
  | nil => intro i r h; simp [withRefsAux] at h
  | cons x rest ih =>
      intro i r h
      rcases List.mem_cons.mp h with h | h
      · subst h
        exact List.mem_cons_self _ _
      · exact List.mem_cons_of_mem _ (ih (i + 1) r h)

/-- Membership in the paired table, decomposed: a retained pair comes from
the odd-side merge or from the even-side merge, with the corresponding
backward match and the non-null altitude requirement of `dropna`. -/
theorem pairFrames_mem_cases {df : List RawFrame} {p : FramePair}
    (hp : p ∈ pairFrames df) :
    (p.oddFrame ∈ df.filter (fun f => f.odd) ∧
      asofBackward 10 p.oddFrame (df.filter (fun f => !f.odd)) = some p.evenFrame ∧
      p.timestamp = p.oddFrame.mintime ∧ p.icao24 = p.oddFrame.icao24 ∧
      p.oddFrame.altitude.isSome = true ∧ p.evenFrame.altitude.isSome = true) ∨
    (p.evenFrame ∈ df.filter (fun f => !f.odd) ∧
      asofBackward 10 p.evenFrame (df.filter (fun f => f.odd)) = some p.oddFrame ∧
      p.timestamp = p.evenFrame.mintime ∧ p.icao24 = p.evenFrame.icao24 ∧
      p.oddFrame.altitude.isSome = true ∧ p.evenFrame.altitude.isSome = true) := by
  simp only [pairFrames] at hp
  rw [List.mem_filterMap] at hp
  obtain ⟨c, hc, hdrop⟩ := hp
  have hc' := (List.perm_insertionSort candLe _).mem_iff.mp hc
  rw [List.mem_append] at hc'
  rcases hc' with hc' | hc'
  · left
    rw [candidatesOddSide, List.mem_map] at hc'
    obtain ⟨l, hl, rfl⟩ := hc'
    cases hm : asofBackward 10 l (df.filter (fun f => !f.odd)) with
    | none => simp [dropnaCand, hm] at hdrop
    | some e =>
        simp only [dropnaCand, hm] at hdrop
        by_cases halt : l.altitude.isSome && e.altitude.isSome
        · rw [if_pos halt] at hdrop
          obtain ⟨h1, h2⟩ := Bool.and_eq_true _ _ ▸ halt
          cases hdrop
          exact ⟨hl, hm, rfl, rfl, h1, h2⟩
        · rw [if_neg halt] at hdrop
          exact absurd hdrop (by simp)
  · right
    rw [candidatesEvenSide, List.mem_map] at hc'
    obtain ⟨l, hl, rfl⟩ := hc'
    cases hm : asofBackward 10 l (df.filter (fun f => f.odd)) with
    | none => simp [dropnaCand, hm] at hdrop
    | some o =>
        simp only [dropnaCand, hm] at hdrop
        by_cases halt : o.altitude.isSome && l.altitude.isSome
        · rw [if_pos halt] at hdrop
          obtain ⟨h1, h2⟩ := Bool.and_eq_true _ _ ▸ halt
          cases hdrop
          exact ⟨hl, hm, rfl, rfl, h1, h2⟩
        · rw [if_neg halt] at hdrop
          exact absurd hdrop (by simp)

/-- Converse for the odd-side merge: a left frame with a backward match and
non-null altitudes yields a retained pair. -/
theorem pairFrames_mem_of_oddSide {df : List RawFrame} {l e : RawFrame}
    (hl : l ∈ df.filter (fun f => f.odd))
    (hm : asofBackward 10 l (df.filter (fun f => !f.odd)) = some e)
    (haltl : l.altitude.isSome = true) (halte : e.altitude.isSome = true) :
    (⟨l.mintime, l.icao24, l, e⟩ : FramePair) ∈ pairFrames df := by
  simp only [pairFrames]
  rw [List.mem_filterMap]
  refine ⟨⟨l.mintime, l.icao24, some l, some e⟩, ?_, ?_⟩
  · refine (List.perm_insertionSort candLe _).mem_iff.mpr ?_
    rw [List.mem_append]
    left
    rw [candidatesOddSide, List.mem_map]
    exact ⟨l, hl, by rw [hm]⟩
  · simp [dropnaCand, haltl, halte]

/-- Converse for the even-side merge. -/
theorem pairFrames_mem_of_evenSide {df : List RawFrame} {l o : RawFrame}
    (hl : l ∈ df.filter (fun f => !f.odd))
    (hm : asofBackward 10 l (df.filter (fun f => f.odd)) = some o)
    (halto : o.altitude.isSome = true) (haltl : l.altitude.isSome = true) :
    (⟨l.mintime, l.icao24, o, l⟩ : FramePair) ∈ pairFrames df := by
  simp only [pairFrames]
  rw [List.mem_filterMap]
  refine ⟨⟨l.mintime, l.icao24, some o, some l⟩, ?_, ?_⟩
  · refine (List.perm_insertionSort candLe _).mem_iff.mpr ?_
    rw [List.mem_append]
    right
    rw [candidatesEvenSide, List.mem_map]
    exact ⟨l, hl, by rw [hm]⟩
  · simp [dropnaCand, halto, haltl]

/-- Claim C1 (counterexample): on the claim's own scenario table — an odd
frame at t = 100 and an even frame at t = 104 for "400A0E", plus an odd frame
at t = 200 — matching each frame with its nearest opposite-parity frame
within the 10-second window in both directions, unioning, re-sorting and
dropping incomplete candidates yields two candidate rows (the odd frame at
t = 100 also finds the later even frame at t = 104 as its nearest match),
while the code's pairing yields exactly the one pair at t = 104: so pairing
is not nearest-time matching, and the claimed general rule contradicts the
claimed scenario outcome. -/
theorem claim1_counterexample :
    pairFramesSpec scenarioDf ≠ pairFrames scenarioDf ∧
    (pairFramesSpec scenarioDf).length = 2 ∧
    (pairFrames scenarioDf).length = 1 := by
  refine ⟨by decide, by decide, by decide⟩

/-- Claim C1 (amended): the frame pairing step matches, in both directions,
each frame with the latest opposite-parity frame of the same aircraft at or
before it and within the 10-second tolerance (the backward `merge_asof`
default), unions the two candidate sets, re-sorts by timestamp and discards
candidates lacking a matched partner; on the scenario table this produces
exactly one position sample, at t = 104, and the partnerless frame at t = 200
appears in no pair. -/
theorem claim1_amended :
    pairFrames scenarioDf = [scenarioPair] ∧
    ∀ (df : List RawFrame) (p : FramePair), p ∈ pairFrames df →
      p.oddFrame ∈ df ∧ p.evenFrame ∈ df ∧
      p.oddFrame.odd = true ∧ p.evenFrame.odd = false ∧
      p.oddFrame.icao24 = p.icao24 ∧ p.evenFrame.icao24 = p.icao24 ∧
      ((p.timestamp = p.oddFrame.mintime ∧ p.evenFrame.mintime ≤ p.oddFrame.mintime ∧
          p.oddFrame.mintime - p.evenFrame.mintime ≤ 10) ∨
        (p.timestamp = p.evenFrame.mintime ∧ p.oddFrame.mintime ≤ p.evenFrame.mintime ∧
          p.evenFrame.mintime - p.oddFrame.mintime ≤ 10)) := by
  refine ⟨by decide, ?_⟩
  intro df p hp
  rcases pairFrames_mem_cases hp with ⟨hl, hm, hts, hkey, _, _⟩ | ⟨hl, hm, hts, hkey, _, _⟩
  · obtain ⟨hmemE, hkeyE, hle, htol⟩ := asofBackward_spec hm
    have hlmem := List.mem_filter.mp hl
    have hemem := List.mem_filter.mp hmemE
    refine ⟨hlmem.1, hemem.1, hlmem.2, by simpa using hemem.2, hkey.symm, ?_, ?_⟩
    · rw [hkeyE, hkey]
    · exact Or.inl ⟨hts, hle, htol⟩
  · obtain ⟨hmemO, hkeyO, hle, htol⟩ := asofBackward_spec hm
    have hlmem := List.mem_filter.mp hl
    have homem := List.mem_filter.mp hmemO
    refine ⟨homem.1, hlmem.1, homem.2, by simpa using hlmem.2, ?_, hkey.symm, ?_⟩
    · rw [hkeyO, hkey]
    · exact Or.inr ⟨hts, hle, htol⟩

/-- Claim C1 (witness): the amended theorem applied to the scenario pair. -/
theorem claim1_amended_witness :
    scenarioPair.oddFrame ∈ scenarioDf ∧ scenarioPair.evenFrame ∈ scenarioDf ∧
    scenarioPair.oddFrame.odd = true ∧ scenarioPair.evenFrame.odd = false ∧
    scenarioPair.oddFrame.icao24 = scenarioPair.icao24 ∧
    scenarioPair.evenFrame.icao24 = scenarioPair.icao24 ∧
    ((scenarioPair.timestamp = scenarioPair.oddFrame.mintime ∧
        scenarioPair.evenFrame.mintime ≤ scenarioPair.oddFrame.mintime ∧
        scenarioPair.oddFrame.mintime - scenarioPair.evenFrame.mintime ≤ 10) ∨
      (scenarioPair.timestamp = scenarioPair.evenFrame.mintime ∧
        scenarioPair.oddFrame.mintime ≤ scenarioPair.evenFrame.mintime ∧
        scenarioPair.evenFrame.mintime - scenarioPair.oddFrame.mintime ≤ 10)) :=
  claim1_amended.2 scenarioDf scenarioPair (by decide)

/-- Claim C5 (counterexample): on a table holding one unpaired frame, zero
pairs are produced, yet `decode_position` does not return an empty table — it
returns its input unchanged, unpaired raw frame included. -/
theorem claim5_counterexample :
    pairFrames lonelyFrameDf = [] ∧
    decode_position trivOracle lonelyFrameDf = .raw lonelyFrameDf ∧
    lonelyFrameDf ≠ [] := by
  refine ⟨by decide, by decide, by decide⟩

/-- Claim C5 (amended): if the pairing step produces zero pairs,
`decode_position` returns its input table unchanged (falling back to the
upstream-decoded rows, unpaired frames included) rather than an empty
table. -/
theorem claim5_amended (d : DecodeOracle) (df : List RawFrame)
    (h : pairFrames df = []) : decode_position d df = .raw df := by
  simp [decode_position, h]

/-- Claim C5 (witness): the amended theorem at the one-frame table. -/
theorem claim5_amended_witness :
    decode_position trivOracle lonelyFrameDf = .raw lonelyFrameDf :=
  claim5_amended trivOracle lonelyFrameDf (by decide)

/-! Idempotence of pairing (claim C9). -/

/-- A backward `merge_asof` match survives restricting the right table to a
sublist that still contains it, when the right table has no duplicate
rows. -/
theorem asofBackward_sublist_stable {tol : ℚ} {l : RawFrame}
    {rsub right : List RawFrame} {e : RawFrame} (hsub : rsub.Sublist right)
    (hnd : right.Nodup) (h1 : asofBackward tol l right = some e)
    (hmem : e ∈ rsub) : asofBackward tol l rsub = some e := by
  unfold asofBackward at h1 ⊢
  refine getLast?_of_sublist_of_nodup (hsub.filter _) (hnd.filter _) h1 ?_
  rw [List.mem_filter]
  exact ⟨hmem, (List.mem_filter.mp (List.mem_of_mem_getLast? h1)).2⟩

/-- A backward `merge_asof` non-match stays a non-match on any sublist of the
right table. -/
theorem asofBackward_sublist_none {tol : ℚ} {l : RawFrame}
    {rsub right : List RawFrame} (hsub : rsub.Sublist right)
    (h : asofBackward tol l right = none) : asofBackward tol l rsub = none := by
  unfold asofBackward at h ⊢
  rw [List.getLast?_eq_none_iff] at h ⊢
  exact List.sublist_nil.mp (h ▸ hsub.filter _)

/-- Claim C9 (counterexample): re-running pairing on the retained frames of
`repairDf` produces the pair (odd t = 100, even t = 91), which the first run
did not produce — the even frame at t = 95 absorbed the backward match of the
odd frame at t = 100 in the first run and was dropped for its null altitude,
so pairing is not idempotent as claimed. -/
theorem claim9_counterexample :
    (⟨100, "abcdef", repairOdd100, repairEven91⟩ : FramePair)
        ∈ pairFrames (retainedFrames repairDf) ∧
    (⟨100, "abcdef", repairOdd100, repairEven91⟩ : FramePair)
        ∉ pairFrames repairDf := by
  refine ⟨by decide, by decide⟩

/-- Claim C9 (amended): on a duplicate-free input table all of whose frames
carry a non-null altitude, pairing is idempotent — re-running the pairing
step on the odd and even frames retained by its own output yields no pair
beyond those already present. -/
theorem claim9_amended (df : List RawFrame) (hnd : df.Nodup)
    (hd : ∀ f ∈ df, f.altitude.isSome = true) :
    ∀ p ∈ pairFrames (retainedFrames df), p ∈ pairFrames df := by
  intro p hp
  have hretsub : retainedFrames df |>.Sublist df := List.filter_sublist df
  have hOcomm : (retainedFrames df).filter (fun f => f.odd)
      = (df.filter (fun f => f.odd)).filter
          (fun f => (pairFrames df).any fun q => q.oddFrame == f || q.evenFrame == f) := by
    rw [retainedFrames, List.filter_comm]
  have hEcomm : (retainedFrames df).filter (fun f => !f.odd)
      = (df.filter (fun f => !f.odd)).filter
          (fun f => (pairFrames df).any fun q => q.oddFrame == f || q.evenFrame == f) := by
    rw [retainedFrames, List.filter_comm]
  have hndO : (df.filter (fun f => f.odd)).Nodup :=
    (List.filter_sublist df).nodup hnd
  have hndE : (df.filter (fun f => !f.odd)).Nodup :=
    (List.filter_sublist df).nodup hnd
  have hsubO : ((retainedFrames df).filter (fun f => f.odd)).Sublist
      (df.filter (fun f => f.odd)) := by
    rw [hOcomm]; exact List.filter_sublist _
  have hsubE : ((retainedFrames df).filter (fun f => !f.odd)).Sublist
      (df.filter (fun f => !f.odd)) := by
    rw [hEcomm]; exact List.filter_sublist _
  rcases pairFrames_mem_cases hp with ⟨hl, hm, hts, hkey, _, _⟩ | ⟨hl, hm, hts, hkey, _, _⟩
  · -- odd-side candidate of the re-run
    have hlO : p.oddFrame ∈ df.filter (fun f => f.odd) := by
      rw [hOcomm] at hl
      exact List.mem_of_mem_filter hl
    cases h1 : asofBackward 10 p.oddFrame (df.filter (fun f => !f.odd)) with
    | none => rw [asofBackward_sublist_none hsubE h1] at hm; cases hm
    | some e1 =>
        obtain ⟨he1E, _, _, _⟩ := asofBackward_spec h1
        have he1df : e1 ∈ df := List.mem_of_mem_filter he1E
        have hldf : p.oddFrame ∈ df := List.mem_of_mem_filter hlO
        have hpair1 : (⟨p.oddFrame.mintime, p.oddFrame.icao24, p.oddFrame, e1⟩ : FramePair)
            ∈ pairFrames df :=
          pairFrames_mem_of_oddSide hlO h1 (hd _ hldf) (hd _ he1df)
        have hret : e1 ∈ (retainedFrames df).filter (fun f => !f.odd) := by
          rw [hEcomm]
          refine List.mem_filter.mpr ⟨he1E, List.any_eq_true.mpr ⟨_, hpair1, ?_⟩⟩
          simp
        have h2 := asofBackward_sublist_stable hsubE hndE h1 hret
        rw [hm] at h2
        obtain rfl : p.evenFrame = e1 := by cases h2; rfl
        have hpeq : p = ⟨p.oddFrame.mintime, p.oddFrame.icao24, p.oddFrame, p.evenFrame⟩ := by
          cases p
          simp_all
        rw [hpeq]
        exact hpair1
  · -- even-side candidate of the re-run
    have hlE : p.evenFrame ∈ df.filter (fun f => !f.odd) := by
      rw [hEcomm] at hl
      exact List.mem_of_mem_filter hl
    cases h1 : asofBackward 10 p.evenFrame (df.filter (fun f => f.odd)) with
    | none => rw [asofBackward_sublist_none hsubO h1] at hm; cases hm
    | some o1 =>
        obtain ⟨ho1O, _, _, _⟩ := asofBackward_spec h1
        have ho1df : o1 ∈ df := List.mem_of_mem_filter ho1O
        have hldf : p.evenFrame ∈ df := List.mem_of_mem_filter hlE
        have hpair1 : (⟨p.evenFrame.mintime, p.evenFrame.icao24, o1, p.evenFrame⟩ : FramePair)
            ∈ pairFrames df :=
          pairFrames_mem_of_evenSide hlE h1 (hd _ ho1df) (hd _ hldf)
        have hret : o1 ∈ (retainedFrames df).filter (fun f => f.odd) := by
          rw [hOcomm]
          refine List.mem_filter.mpr ⟨ho1O, List.any_eq_true.mpr ⟨_, hpair1, ?_⟩⟩
          simp
        have h2 := asofBackward_sublist_stable hsubO hndO h1 hret
        rw [hm] at h2
        obtain rfl : p.oddFrame = o1 := by cases h2; rfl
        have hpeq : p = ⟨p.evenFrame.mintime, p.evenFrame.icao24, p.oddFrame, p.evenFrame⟩ := by
          cases p
          simp_all
        rw [hpeq]
        exact hpair1

/-- Claim C9 (witness): the amended idempotence theorem applied to the C1
scenario table, whose frames all carry altitudes. -/
theorem claim9_amended_witness :
    scenarioPair ∈ pairFrames scenarioDf :=
  claim9_amended scenarioDf (by decide) (by decide) scenarioPair (by decide)

/-! Reference-fix provenance (claim C3). -/

/-- Claim C3 (counterexample): in the two-aircraft table, the row of aircraft
"bbbbbb" (combined index 5) receives the 5-back reference latitude 10 — a fix
of aircraft "aaaaaa" — although every fix of "bbbbbb" has latitude 50: the
`shift(5)`/`shift(10)` reference columns are computed over the whole
timestamp-sorted table, not per aircraft, so a row's references need not
belong to its own aircraft. -/
theorem claim3_counterexample :
    ((withRefs crossRows).get? 5).map
        (fun r => (r.row.pair.icao24, r.latRef1, r.latRef2)) =
      some ("bbbbbb", some 10, none) ∧
    (∀ r ∈ withRefs crossRows, r.row.pair.icao24 = "bbbbbb" → r.row.lat = some 50) ∧
    (∀ r ∈ withRefs crossRows, r.row.pair.icao24 = "aaaaaa" → r.row.lat = some 10) := by
  refine ⟨by decide, by decide, by decide⟩

/-- Claim C3 (amended): for every decoded-pair table, the validator's
reference columns for the row at index `i` are the decoded latitudes and
longitudes of the rows at indices `i - 5` and `i - 10` of the combined
timestamp-sorted table (null when there is no such row), regardless of
aircraft; consequently every present reference value is a decoded fix of
some row of the combined table. -/
theorem claim3_amended :
    (∀ (rows : List DecodedRow) (i : ℕ),
      (withRefs rows).get? i = (rows.get? i).map (refRowAt rows i)) ∧
    (∀ (rows : List DecodedRow) (r : RefRow), r ∈ withRefs rows →
      (∀ q, r.latRef1 = some q → ∃ x ∈ rows, x.lat = some q) ∧
      (∀ q, r.latRef2 = some q → ∃ x ∈ rows, x.lat = some q)) := by
  constructor
  · intro rows i
    have h := withRefsAux_get? rows rows 0 i
    simpa using h
  · intro rows r hr
    obtain ⟨i, hi⟩ := List.mem_iff_get?.mp hr
    rw [withRefs, withRefsAux_get? rows rows 0 i] at hi
    rw [Option.map_eq_some'] at hi
    obtain ⟨x, hx, hxr⟩ := hi
    constructor
    · intro q hq
      rw [← hxr] at hq
      simp only [refRowAt, shiftAt] at hq
      by_cases h5 : 5 ≤ 0 + i
      · rw [if_pos h5] at hq
        obtain ⟨y, hy, hyl⟩ := Option.bind_eq_some.mp hq
        exact ⟨y, List.get?_mem hy, hyl⟩
      · rw [if_neg h5] at hq
        cases hq
    · intro q hq
      rw [← hxr] at hq
      simp only [refRowAt, shiftAt] at hq
      by_cases h10 : 10 ≤ 0 + i
      · rw [if_pos h10] at hq
        obtain ⟨y, hy, hyl⟩ := Option.bind_eq_some.mp hq
        exact ⟨y, List.get?_mem hy, hyl⟩
      · rw [if_neg h10] at hq
        cases hq

/-- Claim C3 (witness): the amended theorem applied to the "bbbbbb" row of
the two-aircraft table, whose 5-back reference latitude 10 is a decoded fix
of the combined table. -/
theorem claim3_amended_witness : ∃ x ∈ crossRows, x.lat = some 10 :=
  (claim3_amended.2 crossRows
    (refRowAt crossRows 5
      (decodeRow crossOracle
        ⟨101, "bbbbbb", ⟨100, "bbbbbb", "bo5", some 100, true⟩,
          ⟨101, "bbbbbb", "be5", some 100, false⟩⟩))
    (by decide)).1 10 (by decide)

/-! Validator output bounds (claim C4). -/

/-- Claim C4: every row of the validator's output satisfies the 0.1-degree
consistency bounds against both reference-anchored re-decodes (the code's
filter is strict, so the non-strict claimed bound holds a fortiori), and the
output rows come from the pairs given. -/
theorem claim4_bounds (d : DecodeOracle) (df : List RawFrame)
    (out : List ValidRow) (hout : decode_position d df = .decoded out) :
    ∀ r ∈ out,
      |r.lat - r.lat1| ≤ 1/10 ∧ |r.lon - r.lon1| ≤ 1/10 ∧
      |r.lat - r.lat2| ≤ 1/10 ∧ |r.lon - r.lon2| ≤ 1/10 ∧
      r.pair ∈ pairFrames df := by
  intro r hr
  simp only [decode_position] at hout
  split at hout
  · cases hout
  · injection hout with hout
    rw [← hout] at hr
    rw [List.mem_filterMap] at hr
    obtain ⟨c, hcmem, hfin⟩ := hr
    rw [List.mem_map] at hcmem
    obtain ⟨rr, hrr, hcval⟩ := hcmem
    have hrrw : rr ∈ withRefs ((pairFrames df).map (decodeRow d)) :=
      List.mem_of_mem_filter hrr
    have hrowmem : rr.row ∈ (pairFrames df).map (decodeRow d) :=
      withRefsAux_row_mem _ _ 0 rr hrrw
    rw [List.mem_map] at hrowmem
    obtain ⟨q, hq, hqrow⟩ := hrowmem
    have hpair : rr.row.pair ∈ pairFrames df := by
      rw [← hqrow]
      exact hq
    rw [← hcval] at hfin
    unfold finalizeRow at hfin
    split at hfin
    · rename_i lat lon alt lr1 nr1 lr2 nr2 l1 n1 l2 n2 hlat hlon halt h1 h2 h3 h4 h5 h6 h7 h8
      split at hfin
      · rename_i hcond
        cases hfin
        exact ⟨le_of_lt hcond.1, le_of_lt hcond.2.1, le_of_lt hcond.2.2.1,
          le_of_lt hcond.2.2.2, by simpa [checkRow] using hpair⟩
      · cases hfin
    · cases hfin

/-- Claim C4 (witness): the bounds theorem applied to the eleven-pair run,
whose output is the single fully-referenced row. -/
theorem claim4_bounds_witness :
    |historyRow.lat - historyRow.lat1| ≤ 1/10 ∧
    |historyRow.lon - historyRow.lon1| ≤ 1/10 ∧
    |historyRow.lat - historyRow.lat2| ≤ 1/10 ∧
    |historyRow.lon - historyRow.lon2| ≤ 1/10 ∧
    historyRow.pair ∈ pairFrames historyDf :=
  claim4_bounds steadyOracle historyDf [historyRow] (by decide) historyRow
    (by decide)

/-! Fusion row count and ordering (claim C2). -/

/-- Claim C2 (counterexample): with a non-empty rollcall table and
`include_rollcall` unset (the default), the rollcall rows are appended to the
fused table by `pd.concat`, so the fused table has more rows than the
position timeline — both at the fusion stage in isolation and for a whole
rebuild invocation that returns a fused table. -/
theorem claim2_counterexample :
    (fuse soloPos [] [] soloRoll false).length = 2 ∧ soloPos.length = 1 ∧
    (match (rebuildModel posRollSrc identityDecoder identityDecoder
        (some ["aaaaaa"]) none DecoderSel.noDecoder false).1 with
      | .ok (some l) => l.length
      | _ => 0) = 2 := by
  refine ⟨by decide, by decide, by decide⟩

/-- Claim C2 (amended): the nearest-time joins are left-preserving — the
fused table has exactly one row per position row — except that a non-empty
rollcall table with `include_rollcall` unset is appended as extra rows, and
the output is always sorted ascending by (aircraft address, timestamp). -/
theorem claim2_amended (pos : List PosRow) (vel : List VelRow)
    (ident : List IdentRow) (roll : List RollRow) (flag : Bool) :
    (fuse pos vel ident roll flag).length
      = pos.length + (if roll.isEmpty || flag then 0 else roll.length) ∧
    List.Sorted fusedLe (fuse pos vel ident roll flag) := by
  constructor
  · simp only [fuse]
    rw [(List.perm_insertionSort fusedLe _).length_eq]
    set r1 := if vel.isEmpty then pos.map posToFused
      else velStep (pos.map posToFused) vel with hr1
    set r2 := if ident.isEmpty then r1 else identStep r1 ident with hr2
    have h1 : r1.length = pos.length := by
      rw [hr1]
      split
      · exact List.length_map _ _
      · rw [velStep, List.length_map, List.length_map]
    have h2 : r2.length = pos.length := by
      rw [hr2]
      split
      · exact h1
      · rw [identStep, List.length_map, h1]
    split
    · rename_i hroll
      simp [hroll, h2]
    · rename_i hroll
      split
      · rename_i hflag
        simp only [rollMergeStep, List.length_map, h2]
        simp [hflag]
      · rename_i hflag
        rw [List.length_append, List.length_map, h2]
        simp only [Bool.not_eq_true] at hflag
        have hre : roll.isEmpty = false := Bool.not_eq_true _ ▸ hroll
        simp [hre, hflag]
  · exact List.sorted_insertionSort fusedLe _

/-! Derived geometric altitude (claim C6). -/

/-- Membership in an `if` between two lists, by a proof for each branch. -/
theorem mem_ite_prop {α : Type} {c : Prop} [Decidable c] {l1 l2 : List α}
    {P : α → Prop} (h1 : ∀ x ∈ l1, P x) (h2 : ∀ x ∈ l2, P x) :
    ∀ x ∈ (if c then l1 else l2), P x := by
  intro x hx
  split at hx
  · exact h1 x hx
  · exact h2 x hx

/-- Membership in an appended pair of lists, by a proof for each part. -/
theorem mem_append_prop {α : Type} {l1 l2 : List α} {P : α → Prop}
    (h1 : ∀ x ∈ l1, P x) (h2 : ∀ x ∈ l2, P x) : ∀ x ∈ l1 ++ l2, P x := by
  intro x hx
  rcases List.mem_append.mp hx with h | h
  · exact h1 x h
  · exact h2 x h

/-- A freshly initialised fused row has no `geoaltitude` and no
`geominurbaro` column. -/
theorem posToFused_geoSum (pos : List PosRow) :
    ∀ x ∈ pos.map posToFused, x.geoaltitude = geoSum x.altitude x.geominurbaro := by
  intro x hx
  rw [List.mem_map] at hx
  obtain ⟨p, _, rfl⟩ := hx
  rcases p with ⟨ts, key, lat, lon, alt, trk, gs⟩
  cases alt <;> rfl

/-- The velocity merge establishes the `geoaltitude` sum invariant. -/
theorem velStep_geoSum (rows : List FusedRow) (vel : List VelRow) :
    ∀ x ∈ velStep rows vel, x.geoaltitude = geoSum x.altitude x.geominurbaro := by
  intro x hx
  rw [velStep, List.mem_map] at hx
  obtain ⟨p, _, rfl⟩ := hx
  cases p.altitude <;>
    cases (asofNearest 5 p.timestamp p.icao24 (fun v => v.timestamp)
      (fun v => v.icao24) vel).bind (fun v => v.geominurbaro) <;> rfl

/-- The identification merge touches neither operand of the sum. -/
theorem identStep_geoSum (rows : List FusedRow) (ident : List IdentRow)
    (h : ∀ x ∈ rows, x.geoaltitude = geoSum x.altitude x.geominurbaro) :
    ∀ x ∈ identStep rows ident,
      x.geoaltitude = geoSum x.altitude x.geominurbaro := by
  intro x hx
  rw [identStep, List.mem_map] at hx
  obtain ⟨p, hp, rfl⟩ := hx
  exact h p hp

/-- The rollcall merge touches neither operand of the sum. -/
theorem rollMergeStep_geoSum (rows : List FusedRow) (roll : List RollRow)
    (h : ∀ x ∈ rows, x.geoaltitude = geoSum x.altitude x.geominurbaro) :
    ∀ x ∈ rollMergeStep rows roll,
      x.geoaltitude = geoSum x.altitude x.geominurbaro := by
  intro x hx
  rw [rollMergeStep, List.mem_map] at hx
  obtain ⟨p, hp, rfl⟩ := hx
  exact h p hp

/-- An appended rollcall row carries neither operand nor the sum. -/
theorem rollToFused_geoSum (roll : List RollRow) :
    ∀ x ∈ roll.map rollToFused,
      x.geoaltitude = geoSum x.altitude x.geominurbaro := by
  intro x hx
  rw [List.mem_map] at hx
  obtain ⟨q, _, rfl⟩ := hx
  rfl

/-- Every fused row's `geoaltitude` is the NaN-propagating sum of its
`altitude` and `geominurbaro` columns. -/
theorem fuse_geoSum (pos : List PosRow) (vel : List VelRow)
    (ident : List IdentRow) (roll : List RollRow) (flag : Bool) :
    ∀ r ∈ fuse pos vel ident roll flag,
      r.geoaltitude = geoSum r.altitude r.geominurbaro := by
  intro r hr
  simp only [fuse] at hr
  have hr3 := (List.perm_insertionSort fusedLe _).mem_iff.mp hr
  exact mem_ite_prop
    (mem_ite_prop (mem_ite_prop (posToFused_geoSum pos) (velStep_geoSum _ vel))
      (identStep_geoSum _ ident
        (mem_ite_prop (posToFused_geoSum pos) (velStep_geoSum _ vel))))
    (mem_ite_prop
      (rollMergeStep_geoSum _ roll
        (mem_ite_prop (mem_ite_prop (posToFused_geoSum pos) (velStep_geoSum _ vel))
          (identStep_geoSum _ ident
            (mem_ite_prop (posToFused_geoSum pos) (velStep_geoSum _ vel)))))
      (mem_append_prop
        (mem_ite_prop (mem_ite_prop (posToFused_geoSum pos) (velStep_geoSum _ vel))
          (identStep_geoSum _ ident
            (mem_ite_prop (posToFused_geoSum pos) (velStep_geoSum _ vel))))
        (rollToFused_geoSum roll)))
    r hr3

/-- Claim C6: in every fused output row, geometric altitude is present iff
both the barometric altitude and the velocity-stream geometric-minus-baro
offset are present for that row, and when present it equals their sum; it is
never defaulted when an operand is absent. -/
theorem claim6_geoaltitude (pos : List PosRow) (vel : List VelRow)
    (ident : List IdentRow) (roll : List RollRow) (flag : Bool)
    (r : FusedRow) (hr : r ∈ fuse pos vel ident roll flag) :
    (r.geoaltitude.isSome = true ↔
      (r.altitude.isSome = true ∧ r.geominurbaro.isSome = true)) ∧
    ∀ a g, r.altitude = some a → r.geominurbaro = some g →
      r.geoaltitude = some (a + g) := by
  have hkey := fuse_geoSum pos vel ident roll flag r hr
  constructor
  · rw [hkey]
    cases ha : r.altitude <;> cases hg : r.geominurbaro <;> simp [geoSum]
  · intro a g ha hg
    rw [hkey, ha, hg]
    rfl

/-- Claim C6 (witness): the theorem applied to a one-position, one-velocity
run whose fused row carries altitude 1000 and offset 50. -/
theorem claim6_witness : soloFused.geoaltitude = some (1000 + 50) :=
  (claim6_geoaltitude soloPos soloVel [] [] false soloFused (by decide)).2
    1000 50 rfl rfl

/-! Callsign space stripping (claim C10). -/

/-- No character of a space-stripped callsign is a space. -/
theorem removeSpaces_no_space (s : String) : ' ' ∉ (removeSpaces s).data := by
  intro h
  rw [removeSpaces] at h
  have := (List.mem_filter.mp h).2
  simp at this

/-- Every callsign carried by a prepared identification row is
space-free. -/
theorem identPrep_no_space {raw : List IdentRow} {i : IdentRow} {c : String}
    (hi : i ∈ identPrep raw) (hc : i.callsign = some c) : ' ' ∉ c.data := by
  rw [identPrep] at hi
  have hi' := (List.perm_insertionSort identLe _).mem_iff.mp hi
  rw [List.mem_map] at hi'
  obtain ⟨j, _, rfl⟩ := hi'
  simp only at hc
  obtain ⟨s, _, rfl⟩ := Option.map_eq_some'.mp hc
  exact removeSpaces_no_space s

/-- A freshly initialised fused row carries no callsign. -/
theorem posToFused_callsign {ident : List IdentRow} (pos : List PosRow) (c : String) :
    ∀ x ∈ pos.map posToFused,
      x.callsign = some c → ∃ i ∈ ident, i.callsign = some c := by
  intro x hx hc
  rw [List.mem_map] at hx
  obtain ⟨p, _, rfl⟩ := hx
  exact Option.noConfusion hc

/-- The velocity merge leaves the callsign column untouched. -/
theorem velStep_callsign {ident : List IdentRow} (rows : List FusedRow)
    (vel : List VelRow) (c : String)
    (h : ∀ x ∈ rows, x.callsign = some c → ∃ i ∈ ident, i.callsign = some c) :
    ∀ x ∈ velStep rows vel,
      x.callsign = some c → ∃ i ∈ ident, i.callsign = some c := by
  intro x hx hc
  rw [velStep, List.mem_map] at hx
  obtain ⟨p, hp, rfl⟩ := hx
  exact h p hp hc

/-- The identification merge populates callsigns from its right table. -/
theorem identStep_callsign (rows : List FusedRow) (ident : List IdentRow)
    (c : String) :
    ∀ x ∈ identStep rows ident,
      x.callsign = some c → ∃ i ∈ ident, i.callsign = some c := by
  intro x hx hc
  rw [identStep, List.mem_map] at hx
  obtain ⟨p, _, rfl⟩ := hx
  simp only at hc
  obtain ⟨i, him, hic⟩ := Option.bind_eq_some.mp hc
  exact ⟨i, asofNearest_mem him, hic⟩

/-- The rollcall merge leaves the callsign column untouched. -/
theorem rollMergeStep_callsign {ident : List IdentRow} (rows : List FusedRow)
    (roll : List RollRow) (c : String)
    (h : ∀ x ∈ rows, x.callsign = some c → ∃ i ∈ ident, i.callsign = some c) :
    ∀ x ∈ rollMergeStep rows roll,
      x.callsign = some c → ∃ i ∈ ident, i.callsign = some c := by
  intro x hx hc
  rw [rollMergeStep, List.mem_map] at hx
  obtain ⟨p, hp, rfl⟩ := hx
  exact h p hp hc

/-- An appended rollcall row carries no callsign. -/
theorem rollToFused_callsign {ident : List IdentRow} (roll : List RollRow)
    (c : String) :
    ∀ x ∈ roll.map rollToFused,
      x.callsign = some c → ∃ i ∈ ident, i.callsign = some c := by
  intro x hx hc
  rw [List.mem_map] at hx
  obtain ⟨q, _, rfl⟩ := hx
  exact Option.noConfusion hc

/-- A callsign carried by a fused row comes from the identification table fed
to the fusion stage. -/
theorem fuse_callsign_mem (pos : List PosRow) (vel : List VelRow)
    (ident : List IdentRow) (roll : List RollRow) (flag : Bool)
    (r : FusedRow) (c : String) (hr : r ∈ fuse pos vel ident roll flag)
    (hc : r.callsign = some c) : ∃ i ∈ ident, i.callsign = some c := by
  simp only [fuse] at hr
  have hr3 := (List.perm_insertionSort fusedLe _).mem_iff.mp hr
  exact mem_ite_prop
    (mem_ite_prop
      (mem_ite_prop (posToFused_callsign pos c) (velStep_callsign _ vel c (posToFused_callsign pos c)))
      (identStep_callsign _ ident c))
    (mem_ite_prop
      (rollMergeStep_callsign _ roll c
        (mem_ite_prop
          (mem_ite_prop (posToFused_callsign pos c) (velStep_callsign _ vel c (posToFused_callsign pos c)))
          (identStep_callsign _ ident c)))
      (mem_append_prop
        (mem_ite_prop
          (mem_ite_prop (posToFused_callsign pos c) (velStep_callsign _ vel c (posToFused_callsign pos c)))
          (identStep_callsign _ ident c))
        (rollToFused_callsign roll c)))
    r hr3 hc

/-- Claim C10: when the identification stream goes through its preparation
step (which strips every space from each callsign) before fusion, every fused
row carrying a callsign carries a space-free one. -/
theorem claim10_callsigns (pos : List PosRow) (vel : List VelRow)
    (rawIdent : List IdentRow) (roll : List RollRow) (flag : Bool)
    (r : FusedRow) (c : String)
    (hr : r ∈ fuse pos vel (identPrep rawIdent) roll flag)
    (hc : r.callsign = some c) : ' ' ∉ c.data := by
  obtain ⟨i, hi, hic⟩ := fuse_callsign_mem pos vel (identPrep rawIdent) roll flag r c hr hc
  exact identPrep_no_space hi hic

/-- Claim C10 (witness): the theorem applied to a run whose raw callsign
"AB C  " fuses as "ABC". -/
theorem claim10_witness : ' ' ∉ "ABC".data :=
  claim10_callsigns soloPos [] paddedIdent [] false fusedWithCallsign "ABC"
    (by decide) rfl

/-! Orchestrator error handling (claims C7 and C8). -/

/-- Claim C7: a string decoder selection other than "pymodes" and "rs1090"
makes `rebuild` raise the unknown-decoder configuration error immediately,
whatever the filters: no fetch happens, and in particular the decoder-name
error takes precedence over the missing-filter error. -/
theorem claim7_unknown_decoder (src : RawTables) (pymodesD rs1090D : DecoderModel)
    (icao24 : Option (List String)) (bounds : Option Bounds) (flag : Bool)
    (s : String) (h1 : s ≠ "pymodes") (h2 : s ≠ "rs1090") :
    rebuildModel src pymodesD rs1090D icao24 bounds (.byName s) flag
      = (.error (.configurationError ("Unknown decoder string: " ++ s)), []) := by
  simp [rebuildModel, resolveDecoder, h1, h2]

/-- Claim C7 (witness): the decoder name "unknown", with no filters given at
all — the decoder-name error wins. -/
theorem claim7_witness :
    rebuildModel emptySrc identityDecoder identityDecoder none none
        (.byName "unknown") false
      = (.error (.configurationError ("Unknown decoder string: " ++ "unknown")), []) :=
  claim7_unknown_decoder emptySrc identityDecoder identityDecoder none none false
    "unknown" (by decide) (by decide)

/-- Claim C8: with neither an aircraft address nor a geographic bound,
`redecode_position` — and hence `rebuild`, for any non-string decoder
selection — raises the missing-filter configuration error with an empty
fetch trace: the error precedes any network fetch. -/
theorem claim8_missing_filter (src : RawTables) (pymodesD rs1090D : DecoderModel)
    (flag : Bool) :
    (∀ dm : Option DecoderModel,
      redecodePositionM src none none dm
        = (.error (.configurationError "Either icao24 or bounds must be specified"), [])) ∧
    rebuildModel src pymodesD rs1090D none none .noDecoder flag
      = (.error (.configurationError "Either icao24 or bounds must be specified"), []) ∧
    ∀ dm : DecoderModel,
      rebuildModel src pymodesD rs1090D none none (.inst dm) flag
        = (.error (.configurationError "Either icao24 or bounds must be specified"), []) :=
  ⟨fun _ => rfl, rfl, fun _ => rfl⟩

end Pyopensky
